import Mathlib

/-
Verification of the wavevid frame-timeline synthesis and audio-mix graph
construction (src/wavevid/renderer.py, animations.py, visualizers/spectrum.py).

All Python floats are modelled as exact rationals (ℚ); Python `int(x)` is
truncation toward zero (`pyInt`); Python integers are ℤ/ℕ as appropriate.
-/

namespace Wavevid

/-- Python `int(x)` applied to a numeric value: truncation toward zero. -/
def pyInt (q : ℚ) : ℤ := if q < 0 then -⌊-q⌋ else ⌊q⌋

/-- Python `max(list)` guarded by `if list else 0`, as used for combinator
durations in animations.py. -/
def pyMax : List ℚ → ℚ
  | [] => 0
  | x :: xs => xs.foldl max x

/-- The wording of the spec `clamp(v, lo, hi)`: the conventional `min hi (max lo v)`. -/
def clampSpec (lo hi v : ℤ) : ℤ := min hi (max lo v)

/-! ## Audio mix graph construction (renderer.py, render_video lines 600-757)

The ffmpeg `-filter_complex` string is modelled structurally: each filter
operation that carries numeric timing parameters becomes an `AudioOp`
constructor holding those parameters exactly as computed by the Python code.
-/

/-- One audio filter operation with its numeric parameters, as emitted into
the `-filter_complex` string by render_video.  `afade_in st d` is
`afade=t=in:st={st}:d={d}`; `afade_out` likewise; `adelay ms` is
`adelay={ms}|{ms}`; `atrim a b` is `atrim={a}:{b}`.  Operations whose
parameters are never computed from timing (dynaudnorm, amix, acompressor)
carry no fields. -/
inductive AudioOp where
  | volume_op (v : ℚ)
  | afade_in (st d : ℚ)
  | afade_out (st d : ℚ)
  | adelay (ms : ℤ)
  | atrim (a b : ℚ)
  | dynaudnorm
  | amix_longest
  | amix_first
  | acompressor
  deriving DecidableEq

/-- The time offsets and durations an operation places into the graph
(volume factors are levels, not times). -/
def AudioOp.timeParams : AudioOp → List ℚ
  | .afade_in st d => [st, d]
  | .afade_out st d => [st, d]
  | .adelay ms => [(ms : ℚ)]
  | .atrim a b => [a, b]
  | _ => []

/-- The configuration surface of render_video that feeds the audio filter
graph (renderer.py lines 416-451). -/
structure MixConfig where
  volume : ℚ := 100
  intro_sound : Bool := false
  intro_duration : ℚ := 3
  outro_sound : Bool := false
  intro_title : Bool := false
  intro_clip_duration : ℚ := 3
  bg_music : Bool := false
  bg_music_volume : ℚ := 15
  end_screen : Bool := false
  end_screen_duration : ℚ := 5
  main_duration : ℚ

/-- Source: `volume_factor = volume / 100` (renderer.py line 653). -/
def volume_factor (c : MixConfig) : ℚ := c.volume / 100

/-- Source: `bg_music_factor = bg_music_volume / 100 if bg_music else 0` (line 654). -/
def bg_music_factor (c : MixConfig) : ℚ :=
  if c.bg_music then c.bg_music_volume / 100 else 0

/-- Source: `intro_clip_delay_ms = int(intro_clip_duration * 1000) if intro_title else 0`
(renderer.py line 657). -/
def intro_clip_delay_ms (c : MixConfig) : ℤ :=
  if c.intro_title then pyInt (c.intro_clip_duration * 1000) else 0

/-- Source: `intro_sound_delay_ms = int(intro_duration * 1000) if intro_sound else 0`
(renderer.py line 658). -/
def intro_sound_delay_ms (c : MixConfig) : ℤ :=
  if c.intro_sound then pyInt (c.intro_duration * 1000) else 0

/-- Source: `total_audio_delay_ms = intro_clip_delay_ms + intro_sound_delay_ms`
(renderer.py line 659).  Computed by the code but never used in the
emitted filter graph. -/
def total_audio_delay_ms (c : MixConfig) : ℤ :=
  intro_clip_delay_ms c + intro_sound_delay_ms c

/-- Source: `intro_trim = intro_duration + 10` (renderer.py line 660). -/
def intro_trim (c : MixConfig) : ℚ := c.intro_duration + 10

/-- Source: `end_screen_sec = end_screen_duration if end_screen else 0` (line 594). -/
def end_screen_sec (c : MixConfig) : ℚ :=
  if c.end_screen then c.end_screen_duration else 0

/-- Source: `total_video_duration = main_duration_sec + (intro_clip_duration if
intro_title else 0) + end_screen_sec` (renderer.py line 664). -/
def total_video_duration (c : MixConfig) : ℚ :=
  c.main_duration + (if c.intro_title then c.intro_clip_duration else 0) +
    end_screen_sec c

/-- The delay actually emitted on the `[main]` chain: `adelay=intro_clip_delay_ms`
in both the intro-sound branch (line 685) and the intro-title branch
(line 688); no adelay at all otherwise (line 691). -/
def main_delay_ms (c : MixConfig) : ℤ :=
  if c.intro_sound ∨ c.intro_title then intro_clip_delay_ms c else 0

/-- Ops of the `[main]` chain (renderer.py lines 683-691). -/
def main_ops (c : MixConfig) : List AudioOp :=
  if c.intro_sound then
    [.volume_op (volume_factor c * (5/2)), .adelay (intro_clip_delay_ms c)]
  else if c.intro_title then
    [.volume_op (volume_factor c), .afade_in 0 2, .adelay (intro_clip_delay_ms c)]
  else
    [.volume_op (volume_factor c), .afade_in 0 2]

/-- Ops of the `[intro]` chain, present when intro_sound is set
(renderer.py lines 698-699 / 712-713): `intro_fade_out_start =
intro_clip_duration`. -/
def intro_ops (c : MixConfig) : List AudioOp :=
  [.dynaudnorm, .volume_op (3/10), .atrim 0 (intro_trim c),
   .afade_in 0 (1/2), .afade_out c.intro_clip_duration c.intro_duration]

/-- Source: `outro_total_duration = 5 + end_screen_sec + 2` (renderer.py line 702). -/
def outro_total_duration (c : MixConfig) : ℚ := 5 + end_screen_sec c + 2

/-- Source: `outro_start_time = max(0, total_video_duration - end_screen_sec - 5)`
(renderer.py line 703). -/
def outro_start_time (c : MixConfig) : ℚ :=
  max 0 (total_video_duration c - end_screen_sec c - 5)

/-- Source: `outro_delay_ms = int(outro_start_time * 1000)` (renderer.py line 704). -/
def outro_delay_ms (c : MixConfig) : ℤ := pyInt (outro_start_time c * 1000)

/-- Source: `outro_fade_out_start = max(0, outro_total_duration - 3)` (line 705). -/
def outro_fade_out_start (c : MixConfig) : ℚ :=
  max 0 (outro_total_duration c - 3)

/-- Ops of the `[outro]` chain, present when outro_sound is set
(renderer.py lines 700-706 / 716-722). -/
def outro_ops (c : MixConfig) : List AudioOp :=
  [.dynaudnorm, .volume_op (35/100), .atrim 0 (outro_total_duration c),
   .afade_in 0 3, .afade_out (outro_fade_out_start c) 3,
   .adelay (outro_delay_ms c)]

/-- Source: `bg_music_duration = main_duration_sec - 5` when an outro is present,
else `main_duration_sec + 5` (renderer.py lines 733, 736). -/
def bg_music_duration (c : MixConfig) : ℚ :=
  if c.outro_sound then c.main_duration - 5 else c.main_duration + 5

/-- Source: `fade_out_start` for the bgm chain: `max(0, bg_music_duration - 3)` with
outro, `max(0, bg_music_duration - 5)` without (lines 734, 737). -/
def bgm_fade_out_start (c : MixConfig) : ℚ :=
  if c.outro_sound then max 0 (bg_music_duration c - 3)
  else max 0 (bg_music_duration c - 5)

/-- Source: `bg_music_delay_ms = intro_clip_delay_ms` (renderer.py line 730). -/
def bg_music_delay_ms (c : MixConfig) : ℤ := intro_clip_delay_ms c

/-- Ops of the `[bgm]` chain, present when bg_music is set (line 738). -/
def bgm_ops (c : MixConfig) : List AudioOp :=
  [.atrim 0 (bg_music_duration c), .volume_op (bg_music_factor c),
   .afade_in 0 3, .afade_out (bgm_fade_out_start c) 3,
   .adelay (bg_music_delay_ms c)]

/-- All operations of the emitted audio filter graph, in emission order,
mirroring the branch structure of renderer.py lines 666-747:
the complex graph when any of intro sound / outro sound / intro title /
bg music is present, else a bare volume filter when volume ≠ 100,
else nothing. -/
def build_audio_graph (c : MixConfig) : List AudioOp :=
  if c.intro_sound ∨ c.outro_sound ∨ c.intro_title ∨ c.bg_music then
    main_ops c ++
    (if c.intro_sound ∧ c.outro_sound then
        intro_ops c ++ outro_ops c ++ [.amix_longest, .amix_longest]
      else if c.intro_sound then intro_ops c ++ [.amix_longest]
      else if c.outro_sound then outro_ops c ++ [.amix_longest]
      else []) ++
    (if c.bg_music then bgm_ops c ++ [.amix_first, .acompressor]
      else [.acompressor])
  else if c.volume ≠ 100 then [.volume_op (volume_factor c)]
  else []

/-! ## Timeline scheduler (renderer.py, render_video frame loop) -/

/-- The MainBody data index (renderer.py lines 840-842):
`data_idx = i - intro_clip_frame_count - sync_offset_frames` then
`data_idx = max(0, min(data_idx, n_frames - 1))`. -/
def data_idx (intro_clip_frame_count : ℕ) (sync_offset_frames : ℤ)
    (n_frames : ℕ) (i : ℕ) : ℤ :=
  max 0 (min ((i : ℤ) - intro_clip_frame_count - sync_offset_frames)
    ((n_frames : ℤ) - 1))

/-! ## Subtitle frame-lookup table (renderer.py lines 776-786) -/

/-- One subtitle segment `{text, start_ms, end_ms}`. -/
structure Subtitle where
  text : String
  start_ms : ℕ
  end_ms : ℕ

/-- Source: `start_frame = int(sub[start_ms] * fps / 1000) + subtitle_offset_frames`
(renderer.py line 782). -/
def sub_start_frame (fps offset : ℕ) (s : Subtitle) : ℕ :=
  s.start_ms * fps / 1000 + offset

/-- Source: `end_frame = int(sub[end_ms] * fps / 1000) + subtitle_offset_frames`
(renderer.py line 783). -/
def sub_end_frame (fps offset : ℕ) (s : Subtitle) : ℕ :=
  s.end_ms * fps / 1000 + offset

/-- The lookup table: association list, earliest insertion first. -/
def lookup_frame (tbl : List (ℕ × String)) (f : ℕ) : Option String :=
  (tbl.find? (fun e => e.1 = f)).map (·.2)

/-- Insert one frame entry, keeping a previous entry if one exists
(`if f not in subtitle_lookup`, renderer.py line 785). -/
def insert_frame (text : String) (tbl : List (ℕ × String)) (f : ℕ) :
    List (ℕ × String) :=
  if (lookup_frame tbl f).isSome then tbl else tbl ++ [(f, text)]

/-- Add the inclusive frame range of one subtitle
(`for f in range(start_frame, end_frame + 1)`, renderer.py line 784). -/
def add_subtitle (fps offset : ℕ) (tbl : List (ℕ × String)) (s : Subtitle) :
    List (ℕ × String) :=
  (List.range' (sub_start_frame fps offset s)
    (sub_end_frame fps offset s + 1 - sub_start_frame fps offset s)).foldl
    (insert_frame s.text) tbl

/-- Build the whole table over the subtitle list (renderer.py lines 779-786). -/
def subtitle_lookup (fps offset : ℕ) (subs : List Subtitle) :
    List (ℕ × String) :=
  subs.foldl (add_subtitle fps offset) []

/-! ## Feature array truncation (renderer.py lines 464-472) -/

/-- Source: `n_frames = min(len(amplitude), len(bands), len(waveform))` (line 469). -/
def n_frames_of {A B C : Type _} (amplitude : List A) (bands : List B)
    (waveform : List C) : ℕ :=
  min amplitude.length (min bands.length waveform.length)

/-! ## Intro phase emitted frame (renderer.py lines 509, 567-580, 815-833)

Frames are modelled as one exact-rational pixel channel; `Image.blend`
computes `im1 * (1 - alpha) + im2 * alpha` per channel. -/

/-- PIL `Image.blend(frame1, frame2, alpha)` on one channel value. -/
def blend_frames (f1 f2 alpha : ℚ) : ℚ := f1 + (f2 - f1) * alpha

/-- Source: `fade_duration_frames = int(fps * 0.5)` (renderer.py line 509). -/
def fade_duration_frames (fps : ℕ) : ℕ := fps / 2

/-- Static-mode intro clip list: one rendered frame repeated
(`[intro_frame] * intro_clip_frame_count`, renderer.py line 580). -/
def static_intro_list (f0 : ℚ) (count : ℕ) : List ℚ := List.replicate count f0

/-- The frame emitted for an intro-phase index `i < intro_clip_frame_count`
(renderer.py lines 817-833): the stored intro frame, cross-blended with the
first main-body frame `main0` once `i >= fade_start` where
`fade_start = intro_clip_frame_count - fade_duration_frames` and
`fade_progress = (i - fade_start) / fade_duration_frames`. -/
def intro_phase_frame (intro_list : List ℚ) (main0 : ℚ)
    (count fade_frames : ℕ) (i : ℕ) : ℚ :=
  let intro_frame := intro_list.getD i 0
  if (count : ℤ) - fade_frames ≤ (i : ℤ) then
    blend_frames intro_frame main0
      (((i : ℚ) - ((count : ℚ) - (fade_frames : ℚ))) / (fade_frames : ℚ))
  else intro_frame

/-! ## Spectrum visualizer peak state (visualizers/spectrum.py) -/

/-- Source: `bar_value = val * (0.6 + amplitude * 0.4)` (spectrum.py lines 36, 44). -/
def bar_value (amplitude val : ℚ) : ℚ := val * (6/10 + amplitude * (4/10))

/-- The per-call peak update (spectrum.py lines 35-40): for each band `i`,
the new peak is the bar value if it exceeds the stored peak, else the
stored peak times the decay factor `0.95`. -/
def update_peaks (peaks bands : List ℚ) (amplitude : ℚ) : List ℚ :=
  List.zipWith
    (fun p v => if p < bar_value amplitude v then bar_value amplitude v
      else p * (95/100)) peaks bands

/-- Effect of one `render_frame` call on the instance state
(spectrum.py lines 24-40): `peak_values` starts as `None` and is
initialised to zeros of the band count on first use. -/
def spectrum_step (st : Option (List ℚ)) (bands : List ℚ) (amplitude : ℚ) :
    List ℚ :=
  update_peaks (st.getD (List.replicate bands.length 0)) bands amplitude

/-- The instance state after a sequence of `render_frame` calls, each call
being a `(bands, amplitude)` argument pair. -/
def run_spectrum (calls : List (List ℚ × ℚ)) : Option (List ℚ) :=
  calls.foldl (fun st c => some (spectrum_step st c.1 c.2)) none

/-- The y coordinate of a peak indicator drawn into the frame
(spectrum.py lines 31-32, 71): `base_y - peak * max_height` with
`base_y = height * 0.85`, `max_height = height * 0.7`. -/
def peak_y (height p : ℚ) : ℚ := height * (85/100) - p * (height * (7/10))

/-- The peak indicator positions the rendered frame contains. -/
def rendered_peak_ys (height : ℚ) (peaks : List ℚ) : List ℚ :=
  peaks.map (peak_y height)

/-! ## Animation system (animations.py)

`AnimationState` fields are exact rationals; `visible_chars` is a Python
int (−1 means all).  The one transcendental easing, `ease_out_elastic`,
returns `2^(-10 t) * sin((10 t - 0.75) * 2π/3) + 1` for `t ∉ {0, 1}`; that
closed form has no rational value, so it is abstracted as a parameter
`em : ℚ → ℚ` threaded through the evaluator — no claim below depends on it
(the code special-cases `t == 0` and `t == 1` to return `t`). -/

/-- animations.py lines 7-16: the dataclass `AnimationState`. -/
structure AnimationState where
  opacity : ℚ := 1
  scale : ℚ := 1
  offset_x : ℚ := 0
  offset_y : ℚ := 0
  rotation : ℚ := 0
  blur : ℚ := 0
  visible_chars : ℤ := -1
  deriving DecidableEq

/-- Source: `AnimationState.merge` (animations.py lines 18-28). -/
def AnimationState.merge (s o : AnimationState) : AnimationState where
  opacity := s.opacity * o.opacity
  scale := s.scale * o.scale
  offset_x := s.offset_x + o.offset_x
  offset_y := s.offset_y + o.offset_y
  rotation := s.rotation + o.rotation
  blur := max s.blur o.blur
  visible_chars :=
    if 0 ≤ s.visible_chars ∧ 0 ≤ o.visible_chars then
      min s.visible_chars o.visible_chars
    else max s.visible_chars o.visible_chars

/-- The default `AnimationState()`. -/
def neutralState : AnimationState := {}

/-- The named easing functions of the EASINGS table (animations.py 60-68). -/
inductive Easing where
  | linear | in_quad | out_quad | in_out_quad | out_cubic | out_back
  | out_elastic
  deriving DecidableEq

/-- Source: `c1 = 1.70158` in `ease_out_back` (animations.py line 49). -/
def back_c1 : ℚ := 170158/100000

/-- Easing evaluation (animations.py lines 32-57); `em` stands for the
transcendental branch of `ease_out_elastic`. -/
def applyEasing (em : ℚ → ℚ) : Easing → ℚ → ℚ
  | .linear, t => t
  | .in_quad, t => t * t
  | .out_quad, t => 1 - (1 - t) * (1 - t)
  | .in_out_quad, t => if t < 1/2 then 2 * t * t else 1 - (-2 * t + 2)^2 / 2
  | .out_cubic, t => 1 - (1 - t)^3
  | .out_back, t => 1 + (back_c1 + 1) * (t - 1)^3 + back_c1 * (t - 1)^2
  | .out_elastic, t => if t = 0 ∨ t = 1 then t else em t

/-- The animation classes of animations.py with their constructor
parameters: FadeIn/FadeOut (104-133), ScaleDown/ScaleUp (136-173),
SlideUp/SlideDown (176-209), Typewriter (212-228), Parallel (231-246),
Sequential (249-270), Delay (273-280), NoAnimation (283-290). -/
inductive Anim where
  | fadeIn (duration delay : ℚ) (e : Easing)
  | fadeOut (duration delay : ℚ) (e : Easing)
  | scaleDown (duration delay start_scale end_scale : ℚ) (e : Easing)
  | scaleUp (duration delay start_scale end_scale : ℚ) (e : Easing)
  | slideUp (duration delay distance : ℚ) (e : Easing)
  | slideDown (duration delay distance : ℚ) (e : Easing)
  | typewriter (duration delay : ℚ) (total_chars : ℤ) (e : Easing)
  | par (children : List Anim)
  | seq (children : List Anim)
  | delayAnim (duration : ℚ)
  | noAnimation

mutual

/-- Source: `total_duration` (animations.py lines 100-101, overridden at 245-246 and
269-270): `delay + duration` for the point animations, max of children for
Parallel (0 when empty, per the guarded `max`), sum for Sequential. -/
def Anim.total_dur : Anim → ℚ
  | .fadeIn d dl _ => dl + d
  | .fadeOut d dl _ => dl + d
  | .scaleDown d dl _ _ _ => dl + d
  | .scaleUp d dl _ _ _ => dl + d
  | .slideUp d dl _ _ => dl + d
  | .slideDown d dl _ _ => dl + d
  | .typewriter d dl _ _ => dl + d
  | .par cs => pyMax (Anim.total_dur_list cs)
  | .seq cs => (Anim.total_dur_list cs).foldr (· + ·) 0
  | .delayAnim d => d
  | .noAnimation => 0

/-- Total durations of the children, in order. -/
def Anim.total_dur_list : List Anim → List ℚ
  | [] => []
  | a :: as => a.total_dur :: Anim.total_dur_list as

end

/-- The `self.delay` attribute set by each `__init__` (0 for the
combinators, Delay and NoAnimation). -/
def Anim.delayOf : Anim → ℚ
  | .fadeIn _ dl _ => dl
  | .fadeOut _ dl _ => dl
  | .scaleDown _ dl _ _ _ => dl
  | .scaleUp _ dl _ _ _ => dl
  | .slideUp _ dl _ _ => dl
  | .slideDown _ dl _ _ => dl
  | .typewriter _ dl _ _ => dl
  | _ => 0

/-- The `self.duration` attribute set by each `__init__`. -/
def Anim.durationOf : Anim → ℚ
  | .fadeIn d _ _ => d
  | .fadeOut d _ _ => d
  | .scaleDown d _ _ _ _ => d
  | .scaleUp d _ _ _ _ => d
  | .slideUp d _ _ _ => d
  | .slideDown d _ _ _ => d
  | .typewriter d _ _ _ => d
  | .par cs => pyMax (Anim.total_dur_list cs)
  | .seq cs => (Anim.total_dur_list cs).foldr (· + ·) 0
  | .delayAnim d => d
  | .noAnimation => 0

/-- The stored easing function of each instance. -/
def Anim.easingOf : Anim → Easing
  | .fadeIn _ _ e => e
  | .fadeOut _ _ e => e
  | .scaleDown _ _ _ _ e => e
  | .scaleUp _ _ _ _ e => e
  | .slideUp _ _ _ e => e
  | .slideDown _ _ _ e => e
  | .typewriter _ _ _ e => e
  | _ => .linear

/-- Source: `_get_start_state` per class. -/
def Anim.startState : Anim → AnimationState
  | .fadeIn _ _ _ => { opacity := 0 }
  | .fadeOut _ _ _ => { opacity := 1 }
  | .scaleDown _ _ s _ _ => { scale := s }
  | .scaleUp _ _ s _ _ => { scale := s }
  | .slideUp _ _ dist _ => { offset_y := dist }
  | .slideDown _ _ dist _ => { offset_y := -dist }
  | .typewriter _ _ _ _ => { visible_chars := 0 }
  | _ => neutralState

/-- Source: `_get_end_state` per class (the combinators inherit the neutral state of the
base class). -/
def Anim.endState : Anim → AnimationState
  | .fadeIn _ _ _ => { opacity := 1 }
  | .fadeOut _ _ _ => { opacity := 0 }
  | .scaleDown _ _ _ e _ => { scale := e }
  | .scaleUp _ _ _ e _ => { scale := e }
  | .slideUp _ _ _ _ => { offset_y := 0 }
  | .slideDown _ _ _ _ => { offset_y := 0 }
  | .typewriter _ _ c _ => { visible_chars := c }
  | _ => neutralState

/-- Source: `_interpolate(progress)` per class. -/
def Anim.interp : Anim → ℚ → AnimationState
  | .fadeIn _ _ _, p => { opacity := p }
  | .fadeOut _ _ _, p => { opacity := 1 - p }
  | .scaleDown _ _ s e _, p => { scale := s + (e - s) * p }
  | .scaleUp _ _ s e _, p => { scale := s + (e - s) * p }
  | .slideUp _ _ dist _, p => { offset_y := dist * (1 - p) }
  | .slideDown _ _ dist _, p => { offset_y := -dist * (1 - p) }
  | .typewriter _ _ c _, p => { visible_chars := pyInt ((c : ℚ) * p) }
  | _, _ => neutralState

/-- True for the classes that use the base `Animation.get_state`
dispatch (everything except the two combinators). -/
def Anim.isPoint : Anim → Bool
  | .par _ => false
  | .seq _ => false
  | _ => true

mutual

/-- Source: `get_state(time)` (animations.py lines 79-89, with the overrides of
Parallel 239-243, Sequential 257-267, Delay 279-280, NoAnimation 289-290). -/
def Anim.getState (em : ℚ → ℚ) : Anim → ℚ → AnimationState
  | .par cs, t => (Anim.stateList em cs t).foldl AnimationState.merge neutralState
  | .seq cs, t => Anim.seqGo em cs t
  | .delayAnim _, _ => neutralState
  | .noAnimation, _ => neutralState
  | a, t =>
    if t < a.delayOf then a.startState
    else if a.durationOf ≤ t - a.delayOf then a.endState
    else a.interp (applyEasing em a.easingOf ((t - a.delayOf) / a.durationOf))

/-- States of the children at the same time (Parallel.get_state loop). -/
def Anim.stateList (em : ℚ → ℚ) : List Anim → ℚ → List AnimationState
  | [], _ => []
  | a :: as, t => a.getState em t :: Anim.stateList em as t

/-- Sequential.get_state loop: run through children consuming their total
durations; past the last child, return its `_get_end_state`. -/
def Anim.seqGo (em : ℚ → ℚ) : List Anim → ℚ → AnimationState
  | [], _ => neutralState
  | a :: as, t =>
    if t < a.total_dur then a.getState em t
    else
      match as with
      | [] => a.endState
      | _ :: _ => Anim.seqGo em as (t - a.total_dur)

end

/-- Cumulative total duration of the first `k` children of a Sequential. -/
def cumDur : List Anim → ℕ → ℚ
  | _, 0 => 0
  | [], _ + 1 => 0
  | a :: as, k + 1 => a.total_dur + cumDur as k

/-! ## Concrete configurations used by the claims -/

/-- Source: `{intro_clip=3s, intro_sound=5s, main=30s, outro=none, bg_music=none}`. -/
def cfg_c1 : MixConfig :=
  { main_duration := 30, intro_title := true, intro_clip_duration := 3,
    intro_sound := true, intro_duration := 5 }

/-- Source: `{intro_clip=0, intro_sound=none, main=20s, outro=present, end_screen=5s}`. -/
def cfg_c3 : MixConfig :=
  { main_duration := 20, outro_sound := true, end_screen := true,
    end_screen_duration := 5 }

/-- Same as `cfg_c3` with main duration 5s (the clamp case). -/
def cfg_c3_short : MixConfig :=
  { main_duration := 5, outro_sound := true, end_screen := true,
    end_screen_duration := 5 }

/-- Very short main audio (3s) with outro and background music present. -/
def cfg_c5 : MixConfig :=
  { main_duration := 3, outro_sound := true, bg_music := true }

/-! ## Helper lemmas -/

/-- Source: `pyInt` of a non-negative value is non-negative. -/
theorem pyInt_nonneg {q : ℚ} (h : 0 ≤ q) : 0 ≤ pyInt q := by
  unfold pyInt
  rw [if_neg (not_lt.mpr h)]
  exact Int.floor_nonneg.mpr h

/-- Source: `end_screen_sec` is non-negative when the configured duration is. -/
theorem end_screen_sec_nonneg {c : MixConfig} (h : 0 ≤ c.end_screen_duration) :
    0 ≤ end_screen_sec c := by
  unfold end_screen_sec; split <;> simp [h]

/-- Source: `intro_clip_delay_ms` is non-negative when the clip duration is. -/
theorem intro_clip_delay_ms_nonneg {c : MixConfig}
    (h : 0 ≤ c.intro_clip_duration) : 0 ≤ intro_clip_delay_ms c := by
  unfold intro_clip_delay_ms
  split
  · exact pyInt_nonneg (by positivity)
  · exact le_refl 0

/-- Any operation of the emitted graph belongs to one of the four source
chains or is one of the parameterless mixing stages / the bare volume
filter. -/
theorem mem_build_audio_graph {c : MixConfig} {op : AudioOp}
    (h : op ∈ build_audio_graph c) :
    op ∈ main_ops c ∨ op ∈ intro_ops c ∨ op ∈ outro_ops c ∨
    (c.bg_music = true ∧ op ∈ bgm_ops c) ∨
    op = .amix_longest ∨ op = .amix_first ∨ op = .acompressor ∨
    op = .volume_op (volume_factor c) := by
  unfold build_audio_graph at h
  split at h
  · simp only [List.mem_append] at h
    rcases h with (h | h) | h
    · exact Or.inl h
    · split at h <;> [skip; split at h] <;> [skip; skip; split at h] <;>
        simp only [List.mem_append, List.mem_cons, List.not_mem_nil] at h <;>
        tauto
    · split at h
      · next hb =>
        simp only [List.mem_append, List.mem_cons, List.not_mem_nil] at h
        rcases h with h | h | h
        · exact Or.inr (Or.inr (Or.inr (Or.inl ⟨by simpa using hb, h⟩)))
        · tauto
        · tauto
      · simp only [List.mem_cons, List.not_mem_nil] at h
        tauto
  · split at h <;> simp_all

/-! ## C1: delay applied to the main audio chain -/

/-- C1 (counterexample): for `{intro_clip=3s, intro_sound=5s, main=30s,
outro=none, bg_music=none}` the delay applied to the main audio source in
the emitted filter graph is 3000 ms — the `adelay` emitted on the `[main]`
chain uses only `intro_clip_delay_ms` — not the 8000 ms
(`intro_clip_duration + intro_sound_duration` in ms) the claim requires;
`total_audio_delay_ms` is computed as 8000 but never emitted. -/
theorem c1_main_delay_counterexample :
    main_delay_ms cfg_c1 = 3000 ∧ total_audio_delay_ms cfg_c1 = 8000 ∧
    main_delay_ms cfg_c1 ≠ 8000 ∧
    AudioOp.adelay 3000 ∈ build_audio_graph cfg_c1 ∧
    AudioOp.adelay 8000 ∉ build_audio_graph cfg_c1 := by
  refine ⟨?_, ?_, ?_, ?_⟩
  · norm_num [main_delay_ms, cfg_c1, intro_clip_delay_ms, pyInt]
  · norm_num [total_audio_delay_ms, cfg_c1, intro_clip_delay_ms,
      intro_sound_delay_ms, pyInt]
  · norm_num [main_delay_ms, cfg_c1, intro_clip_delay_ms, pyInt]
  · constructor <;>
      norm_num [build_audio_graph, cfg_c1, main_ops, intro_ops,
        intro_clip_delay_ms, pyInt, volume_factor, intro_trim] <;> simp

/-- C1 (amended): whenever an intro clip is present — whether or not an
intro sound is present — the delay applied to the main audio source equals
`int(intro_clip_duration * 1000)` ms, and an `adelay` with exactly that
value is emitted into the filter graph. -/
theorem c1_main_delay_amended (c : MixConfig) (h : c.intro_title = true) :
    main_delay_ms c = pyInt (c.intro_clip_duration * 1000) ∧
    AudioOp.adelay (main_delay_ms c) ∈ build_audio_graph c := by
  have hd : main_delay_ms c = intro_clip_delay_ms c := by
    simp [main_delay_ms, h]
  constructor
  · rw [hd]; simp [intro_clip_delay_ms, h]
  · have hmem : AudioOp.adelay (intro_clip_delay_ms c) ∈ main_ops c := by
      by_cases hs : c.intro_sound = true <;> simp [main_ops, hs, h]
    rw [hd]
    unfold build_audio_graph
    rw [if_pos (by simp [h])]
    simp only [List.mem_append]
    exact Or.inl (Or.inl hmem)

/-- C1 witness: the amended statement instantiated at `cfg_c1`. -/
theorem c1_main_delay_amended_witness :
    cfg_c1.intro_title = true ∧
    (main_delay_ms cfg_c1 = pyInt (cfg_c1.intro_clip_duration * 1000) ∧
      AudioOp.adelay (main_delay_ms cfg_c1) ∈ build_audio_graph cfg_c1) :=
  ⟨rfl, c1_main_delay_amended cfg_c1 rfl⟩

/-! ## C3: outro start time -/

/-- C3 (counterexample): for `{intro_clip=0, intro_sound=none, main=20s,
outro=present, end_screen=5s}` the outro start time is
`max(0, (20 + 0 + 5) - 5 - 5) = 15` s (the formula subtracts the end-screen
duration from the total video duration, which already includes it), not the
10 s claimed: the emitted outro delay is 15000 ms and no 10000 ms delay is
emitted. -/
theorem c3_outro_start_counterexample :
    outro_start_time cfg_c3 = 15 ∧ (15 : ℚ) ≠ 10 ∧
    AudioOp.adelay 15000 ∈ build_audio_graph cfg_c3 ∧
    AudioOp.adelay 10000 ∉ build_audio_graph cfg_c3 := by
  refine ⟨?_, by norm_num, ?_⟩
  · norm_num [outro_start_time, cfg_c3, total_video_duration, end_screen_sec]
  · constructor <;>
      norm_num [build_audio_graph, cfg_c3, main_ops, outro_ops, outro_delay_ms,
        outro_start_time, total_video_duration, end_screen_sec,
        outro_total_duration, outro_fade_out_start, pyInt, volume_factor] <;>
      simp

/-- C3 (amended): whenever an outro sound is present, the outro start time
equals `max(0, total_video_duration - end_screen_sec - 5)` seconds — where
`total_video_duration` already includes the end-screen duration, so for the
claimed configuration the value is 15 s, not 10 s — it is never negative,
and the emitted outro `adelay` is that start time in milliseconds. -/
theorem c3_outro_start_amended (c : MixConfig) (h : c.outro_sound = true) :
    outro_start_time c =
      max 0 (total_video_duration c - end_screen_sec c - 5) ∧
    0 ≤ outro_start_time c ∧
    outro_delay_ms c = pyInt (outro_start_time c * 1000) ∧
    AudioOp.adelay (outro_delay_ms c) ∈ build_audio_graph c := by
  refine ⟨rfl, le_max_left 0 _, rfl, ?_⟩
  have hmem : AudioOp.adelay (outro_delay_ms c) ∈ outro_ops c := by
    simp [outro_ops]
  unfold build_audio_graph
  rw [if_pos (by simp [h])]
  simp only [List.mem_append]
  refine Or.inl (Or.inr ?_)
  by_cases hi : c.intro_sound = true
  · rw [if_pos ⟨hi, h⟩]; simp only [List.mem_append]; tauto
  · rw [if_neg (by simp [hi]), if_neg (by simp [hi]), if_pos h]
    simp only [List.mem_append]; tauto

/-- C3 witness: the amended statement at the clamp configuration
(`main=5s`), where the outro start time is exactly 0. -/
theorem c3_outro_start_amended_witness :
    cfg_c3_short.outro_sound = true ∧
    (outro_start_time cfg_c3_short =
        max 0 (total_video_duration cfg_c3_short - end_screen_sec cfg_c3_short - 5) ∧
      0 ≤ outro_start_time cfg_c3_short ∧
      outro_delay_ms cfg_c3_short = pyInt (outro_start_time cfg_c3_short * 1000) ∧
      AudioOp.adelay (outro_delay_ms cfg_c3_short) ∈ build_audio_graph cfg_c3_short) ∧
    outro_start_time cfg_c3_short = 0 :=
  ⟨rfl, c3_outro_start_amended cfg_c3_short rfl,
    by norm_num [outro_start_time, cfg_c3_short, total_video_duration,
      end_screen_sec]⟩

/-! ## C5: non-negativity of emitted times -/

/-- C5 (counterexample): with main audio of 3 s, an outro and background
music, the background-music trim duration `main_duration - 5 = -2` is
emitted into the graph unclamped: the graph contains `atrim=0:-2`, so not
every computed time placed into the graph is non-negative. -/
theorem c5_negative_time_counterexample :
    AudioOp.atrim 0 (-2) ∈ build_audio_graph cfg_c5 ∧
    ¬ (∀ op ∈ build_audio_graph cfg_c5, ∀ q ∈ op.timeParams, 0 ≤ q) := by
  have hmem : AudioOp.atrim 0 (-2) ∈ build_audio_graph cfg_c5 := by
    norm_num [build_audio_graph, cfg_c5, main_ops, outro_ops, bgm_ops,
      bg_music_duration]
  refine ⟨hmem, fun h => ?_⟩
  have h2 := h _ hmem (-2) (by simp [AudioOp.timeParams])
  norm_num at h2

/-- C5 (amended): with non-negative configured durations, every time offset
or duration emitted into the filter graph is non-negative — except that the
background-music trim duration is not defensively clamped; it is
non-negative only under the additional assumption that the main audio lasts
at least 5 s whenever background music and an outro are both present. -/
theorem c5_nonneg_amended (c : MixConfig)
    (h1 : 0 ≤ c.intro_clip_duration) (h2 : 0 ≤ c.intro_duration)
    (h3 : 0 ≤ c.main_duration) (h4 : 0 ≤ c.end_screen_duration)
    (h5 : c.bg_music = true → c.outro_sound = true → 5 ≤ c.main_duration) :
    ∀ op ∈ build_audio_graph c, ∀ q ∈ op.timeParams, 0 ≤ q := by
  have hes : 0 ≤ end_screen_sec c := end_screen_sec_nonneg h4
  have hicd : (0 : ℚ) ≤ (intro_clip_delay_ms c : ℚ) := by
    exact_mod_cast intro_clip_delay_ms_nonneg h1
  have hbg : c.bg_music = true → 0 ≤ bg_music_duration c := by
    intro hb
    unfold bg_music_duration
    split
    · next ho => linarith [h5 hb ho]
    · linarith
  intro op hop
  rcases mem_build_audio_graph hop with hm | hm | hm | hm | hm | hm | hm | hm
  · -- main chain
    have : op = AudioOp.volume_op (volume_factor c * (5/2)) ∨
        op = AudioOp.volume_op (volume_factor c) ∨
        op = AudioOp.afade_in 0 2 ∨
        op = AudioOp.adelay (intro_clip_delay_ms c) := by
      unfold main_ops at hm
      split at hm
      · simp only [List.mem_cons, List.not_mem_nil, or_false] at hm; tauto
      · split at hm <;>
          simp only [List.mem_cons, List.not_mem_nil, or_false] at hm <;> tauto
    rcases this with hm | hm | hm | hm <;> subst hm <;> intro q hq <;>
      simp only [AudioOp.timeParams, List.mem_cons, List.not_mem_nil,
        or_false] at hq
    · rcases hq with hq | hq <;> subst hq <;> norm_num
    · subst hq; exact hicd
  · -- intro chain
    simp only [intro_ops, List.mem_cons, List.not_mem_nil, or_false] at hm
    intro q hq
    rcases hm with hm | hm | hm | hm | hm <;> subst hm <;>
      simp only [AudioOp.timeParams, List.mem_cons, List.not_mem_nil,
        or_false, intro_trim] at hq
    · rcases hq with hq | hq <;> subst hq
      · norm_num
      · linarith
    · rcases hq with hq | hq <;> subst hq <;> norm_num
    · rcases hq with hq | hq <;> subst hq
      · exact h1
      · exact h2
  · -- outro chain
    simp only [outro_ops, List.mem_cons, List.not_mem_nil, or_false] at hm
    intro q hq
    rcases hm with hm | hm | hm | hm | hm | hm <;> subst hm <;>
      simp only [AudioOp.timeParams, List.mem_cons, List.not_mem_nil,
        or_false] at hq
    · rcases hq with hq | hq <;> subst hq
      · norm_num
      · unfold outro_total_duration; linarith
    · rcases hq with hq | hq <;> subst hq <;> norm_num
    · rcases hq with hq | hq <;> subst hq
      · exact le_max_left 0 _
      · norm_num
    · subst hq
      exact_mod_cast pyInt_nonneg
        (mul_nonneg (le_max_left 0 _) (by norm_num))
  · -- bgm chain: in the emitted graph only when bg music is configured
    obtain ⟨hb, hm⟩ := hm
    simp only [bgm_ops, List.mem_cons, List.not_mem_nil, or_false] at hm
    intro q hq
    rcases hm with hm | hm | hm | hm | hm <;> subst hm <;>
      simp only [AudioOp.timeParams, List.mem_cons, List.not_mem_nil,
        or_false] at hq
    · rcases hq with hq | hq <;> subst hq
      · norm_num
      · exact hbg hb
    · rcases hq with hq | hq <;> subst hq <;> norm_num
    · rcases hq with hq | hq <;> subst hq
      · unfold bgm_fade_out_start; split <;> exact le_max_left 0 _
      · norm_num
    · subst hq; exact hicd
  · subst hm; intro q hq; exact absurd hq (by simp [AudioOp.timeParams])
  · subst hm; intro q hq; exact absurd hq (by simp [AudioOp.timeParams])
  · subst hm; intro q hq; exact absurd hq (by simp [AudioOp.timeParams])
  · subst hm; intro q hq; exact absurd hq (by simp [AudioOp.timeParams])

/-- C5 witness: the amended statement at `cfg_c3` (outro and end screen
present, main 20 s), checking one emitted fade-out start. -/
theorem c5_nonneg_amended_witness :
    (0 : ℚ) ≤ cfg_c3.intro_clip_duration ∧ (0 : ℚ) ≤ cfg_c3.intro_duration ∧
    (0 : ℚ) ≤ cfg_c3.main_duration ∧ (0 : ℚ) ≤ cfg_c3.end_screen_duration ∧
    (∀ op ∈ build_audio_graph cfg_c3, ∀ q ∈ op.timeParams, 0 ≤ q) :=
  ⟨by norm_num [cfg_c3], by norm_num [cfg_c3], by norm_num [cfg_c3],
    by norm_num [cfg_c3],
    c5_nonneg_amended cfg_c3 (by norm_num [cfg_c3]) (by norm_num [cfg_c3])
      (by norm_num [cfg_c3]) (by norm_num [cfg_c3]) (by simp [cfg_c3])⟩

/-! ## C2: MainBody data index -/

/-- C2 (confirmed): for every output frame index in the MainBody phase and
every integer sync offset, the data index passed to the visualizer is
`clamp(i - intro_clip_frames - sync_offset_frames, 0, n_frames - 1)`,
including at the phase boundary and the last frame, for positive and
negative offsets alike. -/
theorem c2_data_idx (intro_clip_frame_count n_frames : ℕ)
    (sync_offset_frames : ℤ) (i : ℕ) (hn : 1 ≤ n_frames)
    (h1 : intro_clip_frame_count ≤ i)
    (h2 : i < intro_clip_frame_count + n_frames) :
    data_idx intro_clip_frame_count sync_offset_frames n_frames i =
      clampSpec 0 ((n_frames : ℤ) - 1)
        ((i : ℤ) - intro_clip_frame_count - sync_offset_frames) := by
  unfold data_idx clampSpec
  rcases le_total ((i : ℤ) - intro_clip_frame_count - sync_offset_frames) 0 with
    h | h <;>
    rcases le_total ((i : ℤ) - intro_clip_frame_count - sync_offset_frames)
      ((n_frames : ℤ) - 1) with h3 | h3 <;>
    omega

/-- C2 witness: boundary frame `i = intro_clip_frames = 90` with negative
offset −3 and last frame `i = 189` with positive offset 5, at
`n_frames = 100`. -/
theorem c2_data_idx_witness :
    (1 ≤ 100 ∧ 90 ≤ 90 ∧ 90 < 90 + 100 ∧
      data_idx 90 (-3) 100 90 = clampSpec 0 99 3) ∧
    (1 ≤ 100 ∧ 90 ≤ 189 ∧ 189 < 90 + 100 ∧
      data_idx 90 5 100 189 = clampSpec 0 99 94) := by
  constructor
  · refine ⟨by norm_num, by norm_num, by norm_num, ?_⟩
    have h := c2_data_idx 90 100 (-3) 90 (by norm_num) (by norm_num)
      (by norm_num)
    simpa using h
  · refine ⟨by norm_num, by norm_num, by norm_num, ?_⟩
    have h := c2_data_idx 90 100 5 189 (by norm_num) (by norm_num)
      (by norm_num)
    simpa using h

/-! ## C8: feature array truncation -/

/-- C8 (confirmed): after the truncation step the three per-frame feature
arrays all have length `n_frames`, the minimum of the three extracted
lengths. -/
theorem c8_feature_truncation {A B C : Type _} (amplitude : List A)
    (bands : List B) (waveform : List C) :
    (amplitude.take (n_frames_of amplitude bands waveform)).length =
      n_frames_of amplitude bands waveform ∧
    (bands.take (n_frames_of amplitude bands waveform)).length =
      n_frames_of amplitude bands waveform ∧
    (waveform.take (n_frames_of amplitude bands waveform)).length =
      n_frames_of amplitude bands waveform ∧
    n_frames_of amplitude bands waveform =
      min amplitude.length (min bands.length waveform.length) := by
  refine ⟨?_, ?_, ?_, rfl⟩ <;> simp only [List.length_take, n_frames_of] <;>
    omega

/-! ## C9: static intro frames -/

/-- C9 (counterexample): with a static intro of 90 frames at 30 fps
(`fade_duration_frames = 15`), intro pixel value 0 and first main-body
pixel value 255, the frame emitted at intro index 76 lies inside the fade
transition and has been cross-blended to 17, differing from the frame
emitted at index 0 — so the emitted pixel content is not identical across
`[0, intro_clip_frames)`. -/
theorem c9_static_intro_counterexample :
    intro_phase_frame (static_intro_list 0 90) 255 90 15 76 = 17 ∧
    intro_phase_frame (static_intro_list 0 90) 255 90 15 0 = 0 ∧
    intro_phase_frame (static_intro_list 0 90) 255 90 15 76 ≠
      intro_phase_frame (static_intro_list 0 90) 255 90 15 0 := by
  norm_num [intro_phase_frame, static_intro_list, blend_frames]

/-- C9 (amended): with `intro_static=True` the stored intro clip frame is
the same for every index, and the emitted frame is identical (the static
frame itself) for every index up to `intro_clip_frames -
fade_duration_frames`; past that point the emitted frame is the static
frame cross-blended with the first main-body frame by the linear fade. -/
theorem c9_static_intro_amended :
    (∀ (f0 main0 : ℚ) (count fade_frames i : ℕ), i < count →
      (i : ℤ) ≤ (count : ℤ) - fade_frames →
      intro_phase_frame (static_intro_list f0 count) main0 count fade_frames i
        = f0) ∧
    (∀ (f0 main0 : ℚ) (count fade_frames i : ℕ), i < count →
      (count : ℤ) - fade_frames ≤ (i : ℤ) →
      intro_phase_frame (static_intro_list f0 count) main0 count fade_frames i
        = blend_frames f0 main0
            (((i : ℚ) - ((count : ℚ) - (fade_frames : ℚ))) /
              (fade_frames : ℚ))) := by
  have hget : ∀ (f0 : ℚ) (count i : ℕ), i < count →
      (static_intro_list f0 count).getD i 0 = f0 := by
    intro f0 count i hi
    simp [static_intro_list, List.getD_eq_getElem?_getD, List.getElem?_replicate,
      hi]
  constructor
  · intro f0 main0 count fade_frames i hi hle
    unfold intro_phase_frame
    rw [hget f0 count i hi]
    split
    · next hge =>
      have hie : (i : ℤ) = (count : ℤ) - fade_frames := le_antisymm hle hge
      have hq : (i : ℚ) - ((count : ℚ) - (fade_frames : ℚ)) = 0 := by
        have := congrArg (fun z : ℤ => (z : ℚ)) hie
        push_cast at this
        linarith
      rw [hq]
      simp [blend_frames]
    · rfl
  · intro f0 main0 count fade_frames i hi hge
    unfold intro_phase_frame
    rw [hget f0 count i hi]
    rw [if_pos hge]

/-- C9 amended witness: indices 0 and 75 (= `fade_start`) of the same
static 90-frame intro both emit the static frame value. -/
theorem c9_static_intro_amended_witness :
    (0 < 90 ∧ (0 : ℤ) ≤ (90 : ℤ) - 15 ∧
      intro_phase_frame (static_intro_list 7 90) 255 90 15 0 = 7) ∧
    (75 < 90 ∧ (75 : ℤ) ≤ (90 : ℤ) - 15 ∧
      intro_phase_frame (static_intro_list 7 90) 255 90 15 75 = 7) :=
  ⟨⟨by norm_num, by norm_num,
      c9_static_intro_amended.1 7 255 90 15 0 (by norm_num) (by norm_num)⟩,
    ⟨by norm_num, by norm_num,
      c9_static_intro_amended.1 7 255 90 15 75 (by norm_num) (by norm_num)⟩⟩

/-! ## C10: spectrum visualizer peak-hold state -/

/-- Pointwise description of `update_peaks`. -/
theorem update_peaks_getD (amp : ℚ) :
    ∀ (peaks bands : List ℚ) (i : ℕ), i < peaks.length → i < bands.length →
      (update_peaks peaks bands amp).getD i 0 =
        if peaks.getD i 0 < bar_value amp (bands.getD i 0)
        then bar_value amp (bands.getD i 0)
        else peaks.getD i 0 * (95/100) := by
  intro peaks
  induction peaks with
  | nil => intro bands i hp _; simp at hp
  | cons p ps ih =>
    intro bands i hp hb
    match bands, i with
    | v :: vs, 0 => simp [update_peaks]
    | v :: vs, j + 1 =>
      simp only [update_peaks, List.zipWith_cons_cons, List.getD_cons_succ]
      exact ih vs j (by simpa using hp) (by simpa using hb)

/-- C10 (confirmed): `render_frame` is stateful: each call rewrites every
stored peak to the current bar value of the band (`band * (0.6 + 0.4 *
amplitude)`) when that exceeds the stored peak, else to the stored peak
times the decay factor 0.95; consequently two call histories ending with
identical arguments can leave different peak states and hence different
peak-indicator positions in the rendered frame. -/
theorem c10_spectrum_peak_state :
    (∀ (peaks bands : List ℚ) (amp : ℚ) (i : ℕ),
      i < peaks.length → i < bands.length →
      (update_peaks peaks bands amp).getD i 0 =
        if peaks.getD i 0 < bar_value amp (bands.getD i 0)
        then bar_value amp (bands.getD i 0)
        else peaks.getD i 0 * (95/100)) ∧
    run_spectrum [([1], 0), ([0], 0)] ≠ run_spectrum [([0], 0)] ∧
    rendered_peak_ys 1080 ((run_spectrum [([1], 0), ([0], 0)]).getD []) ≠
      rendered_peak_ys 1080 ((run_spectrum [([0], 0)]).getD []) := by
  refine ⟨fun peaks bands amp i hp hb => update_peaks_getD amp peaks bands i hp hb,
    ?_, ?_⟩ <;>
    norm_num [run_spectrum, spectrum_step, update_peaks, bar_value,
      rendered_peak_ys, peak_y]

/-- C10 witness: the update rule at stored peak 1, band 2, amplitude 1/2:
the bar value `2 * (0.6 + 0.2) = 1.6` exceeds 1 and replaces it. -/
theorem c10_spectrum_peak_state_witness :
    0 < [(1 : ℚ)].length ∧ 0 < [(2 : ℚ)].length ∧
    (update_peaks [1] [2] (1/2)).getD 0 0 =
      if (1 : ℚ) < bar_value (1/2) 2 then bar_value (1/2) 2
      else 1 * (95/100) := by
  refine ⟨by norm_num, by norm_num, ?_⟩
  have h := c10_spectrum_peak_state.1 [1] [2] (1/2) 0 (by norm_num)
    (by norm_num)
  simpa using h

/-! ## C4: subtitle frame-lookup table -/

/-- Lookup distributes over table append, earlier entries first. -/
theorem lookup_frame_append (t1 t2 : List (ℕ × String)) (i : ℕ) :
    lookup_frame (t1 ++ t2) i =
      (lookup_frame t1 i).or (lookup_frame t2 i) := by
  unfold lookup_frame
  rw [List.find?_append]
  cases List.find? (fun e => e.1 = i) t1 <;> simp

/-- Effect of a single first-wins insertion on lookup. -/
theorem lookup_insert_frame (txt : String) (tbl : List (ℕ × String))
    (f i : ℕ) :
    lookup_frame (insert_frame txt tbl f) i =
      if (lookup_frame tbl i).isSome then lookup_frame tbl i
      else if i = f then some txt else none := by
  unfold insert_frame
  split
  · next hf =>
    by_cases hi : (lookup_frame tbl i).isSome
    · rw [if_pos hi]
    · rw [if_neg hi]
      rw [Option.not_isSome_iff_eq_none] at hi
      by_cases hif : i = f
      · subst hif; rw [hi] at hf; simp at hf
      · rw [if_neg hif]; exact hi
  · rw [lookup_frame_append]
    have hsing : lookup_frame [(f, txt)] i =
        if i = f then some txt else none := by
      unfold lookup_frame
      by_cases hif : i = f
      · subst hif; simp [List.find?]
      · simp [List.find?, decide_eq_true_eq, Ne.symm hif, hif]
    rw [hsing]
    by_cases hi : (lookup_frame tbl i).isSome
    · rw [if_pos hi]
      obtain ⟨v, hv⟩ := Option.isSome_iff_exists.mp hi
      rw [hv]; rfl
    · rw [if_neg hi]
      rw [Option.not_isSome_iff_eq_none] at hi
      rw [hi]; rfl

/-- Effect of inserting a whole frame list with first-writer-wins. -/
theorem lookup_foldl_insert (txt : String) :
    ∀ (fs : List ℕ) (tbl : List (ℕ × String)) (i : ℕ),
      lookup_frame (fs.foldl (insert_frame txt) tbl) i =
        if (lookup_frame tbl i).isSome then lookup_frame tbl i
        else if i ∈ fs then some txt else none := by
  intro fs
  induction fs with
  | nil =>
    intro tbl i
    simp only [List.foldl_nil, List.not_mem_nil, if_false]
    by_cases hi : (lookup_frame tbl i).isSome
    · rw [if_pos hi]
    · rw [if_neg hi]
      exact Option.not_isSome_iff_eq_none.mp hi
  | cons f fs ih =>
    intro tbl i
    rw [List.foldl_cons, ih, lookup_insert_frame]
    by_cases hi : (lookup_frame tbl i).isSome
    · simp [hi]
    · rw [Option.not_isSome_iff_eq_none] at hi
      by_cases hif : i = f
      · subst hif
        simp [hi]
      · simp [hi, hif, List.mem_cons]

/-- With the segment invariant `start_ms ≤ end_ms`, the mapped frame range
is well ordered. -/
theorem sub_frames_mono (fps offset : ℕ) (s : Subtitle)
    (hs : s.start_ms ≤ s.end_ms) :
    sub_start_frame fps offset s ≤ sub_end_frame fps offset s := by
  unfold sub_start_frame sub_end_frame
  exact Nat.add_le_add_right
    (Nat.div_le_div_right (Nat.mul_le_mul_right fps hs)) offset

/-- Lookup after adding one subtitle to a table. -/
theorem lookup_add_subtitle (fps offset : ℕ) (tbl : List (ℕ × String))
    (s : Subtitle) (hs : s.start_ms ≤ s.end_ms) (i : ℕ) :
    lookup_frame (add_subtitle fps offset tbl s) i =
      if (lookup_frame tbl i).isSome then lookup_frame tbl i
      else if sub_start_frame fps offset s ≤ i ∧ i ≤ sub_end_frame fps offset s
        then some s.text else none := by
  unfold add_subtitle
  rw [lookup_foldl_insert]
  have hmem : i ∈ List.range' (sub_start_frame fps offset s)
      (sub_end_frame fps offset s + 1 - sub_start_frame fps offset s) ↔
      (sub_start_frame fps offset s ≤ i ∧ i ≤ sub_end_frame fps offset s) := by
    rw [List.mem_range'_1]
    have := sub_frames_mono fps offset s hs
    omega
  by_cases hi : (lookup_frame tbl i).isSome
  · simp [hi]
  · simp only [hi, if_false]
    by_cases hin : sub_start_frame fps offset s ≤ i ∧
        i ≤ sub_end_frame fps offset s
    · rw [if_pos (hmem.mpr hin), if_pos hin]
    · rw [if_neg (fun h => hin (hmem.mp h)), if_neg hin]

/-- C4 (confirmed): the subtitle lookup maps each segment to the inclusive
output-frame range `[start_ms*fps/1000 + intro_clip_frames,
end_ms*fps/1000 + intro_clip_frames]` with first-writer-wins on overlaps;
the segment `{start_ms:1000, end_ms:1500}` at fps 30 with 90 intro frames
is active exactly on frames 120 through 135. -/
theorem c4_subtitle_lookup :
    (∀ (fps offset : ℕ) (s : Subtitle), s.start_ms ≤ s.end_ms → ∀ i : ℕ,
      lookup_frame (subtitle_lookup fps offset [s]) i =
        if sub_start_frame fps offset s ≤ i ∧ i ≤ sub_end_frame fps offset s
        then some s.text else none) ∧
    (∀ (fps offset : ℕ) (s1 s2 : Subtitle), s1.start_ms ≤ s1.end_ms →
      ∀ i : ℕ, sub_start_frame fps offset s1 ≤ i →
        i ≤ sub_end_frame fps offset s1 →
        lookup_frame (subtitle_lookup fps offset [s1, s2]) i =
          some s1.text) ∧
    (∀ i : ℕ,
      lookup_frame (subtitle_lookup 30 90 [⟨"hi", 1000, 1500⟩]) i =
        if 120 ≤ i ∧ i ≤ 135 then some "hi" else none) := by
  have hsingle : ∀ (fps offset : ℕ) (s : Subtitle), s.start_ms ≤ s.end_ms →
      ∀ i : ℕ, lookup_frame (subtitle_lookup fps offset [s]) i =
        if sub_start_frame fps offset s ≤ i ∧ i ≤ sub_end_frame fps offset s
        then some s.text else none := by
    intro fps offset s hs i
    unfold subtitle_lookup
    rw [List.foldl_cons, List.foldl_nil, lookup_add_subtitle fps offset [] s hs]
    simp [lookup_frame]
  refine ⟨hsingle, ?_, ?_⟩
  · intro fps offset s1 s2 hs1 i hi1 hi2
    unfold subtitle_lookup
    rw [List.foldl_cons, List.foldl_cons, List.foldl_nil]
    have h1 : lookup_frame (add_subtitle fps offset [] s1) i = some s1.text := by
      have := hsingle fps offset s1 hs1 i
      unfold subtitle_lookup at this
      rw [List.foldl_cons, List.foldl_nil] at this
      rw [this, if_pos ⟨hi1, hi2⟩]
    unfold add_subtitle
    unfold add_subtitle at h1
    rw [lookup_foldl_insert]
    simp [h1]
  · intro i
    have h := hsingle 30 90 ⟨"hi", 1000, 1500⟩ (by norm_num) i
    have hst : sub_start_frame 30 90 ⟨"hi", 1000, 1500⟩ = 120 := by
      norm_num [sub_start_frame]
    have hen : sub_end_frame 30 90 ⟨"hi", 1000, 1500⟩ = 135 := by
      norm_num [sub_end_frame]
    rw [hst, hen] at h
    exact h

/-- C4 witness: the single-segment lookup applied at the example of the spec,
frame 125 (inside [120, 135]). -/
theorem c4_subtitle_lookup_witness :
    1000 ≤ 1500 ∧
    lookup_frame (subtitle_lookup 30 90 [⟨"hi", 1000, 1500⟩]) 125 =
      some "hi" := by
  refine ⟨by norm_num, ?_⟩
  have h := c4_subtitle_lookup.1 30 90 ⟨"hi", 1000, 1500⟩ (by norm_num) 125
  norm_num [sub_start_frame, sub_end_frame] at h
  exact h

/-! ## C6: point animation evaluation -/

/-- Every built-in easing maps 0 to 0 (`ease_out_elastic` by its explicit
special case). -/
theorem applyEasing_zero (em : ℚ → ℚ) (e : Easing) : applyEasing em e 0 = 0 := by
  cases e <;> norm_num [applyEasing, back_c1]

/-- For every point animation, `_interpolate(0)` is the start state. -/
theorem interp_zero (a : Anim) (hp : a.isPoint = true) :
    a.interp 0 = a.startState := by
  cases a <;>
    simp_all [Anim.interp, Anim.startState, Anim.isPoint, neutralState,
      pyInt, AnimationState.mk.injEq]

/-- The base `Animation.get_state` if-chain, valid for every class that does
not override `get_state` with time-dependent dispatch (for Delay and
NoAnimation every branch is the neutral state, so the chain also describes
their constant override). -/
theorem getState_point (em : ℚ → ℚ) (a : Anim) (hp : a.isPoint = true)
    (t : ℚ) :
    a.getState em t =
      if t < a.delayOf then a.startState
      else if a.durationOf ≤ t - a.delayOf then a.endState
      else a.interp (applyEasing em a.easingOf ((t - a.delayOf) / a.durationOf)) := by
  cases a with
  | par cs => simp [Anim.isPoint] at hp
  | seq cs => simp [Anim.isPoint] at hp
  | delayAnim d =>
    simp only [Anim.getState, Anim.delayOf, Anim.durationOf, Anim.easingOf,
      Anim.interp, Anim.startState, Anim.endState]
    split_ifs <;> rfl
  | noAnimation =>
    simp only [Anim.getState, Anim.delayOf, Anim.durationOf, Anim.easingOf,
      Anim.interp, Anim.startState, Anim.endState]
    split_ifs <;> rfl
  | _ => simp [Anim.getState, Anim.delayOf, Anim.durationOf, Anim.easingOf]

/-- C6 (confirmed): for every built-in point animation with non-negative
delay and positive duration, evaluation is a pure function of time
(repeated evaluation yields the same state), any time strictly before
`delay` yields the start state, any time at or after `delay + duration`
yields the end state, and evaluation at time 0 yields the start state. -/
theorem c6_point_animation_evaluation (em : ℚ → ℚ) (a : Anim)
    (hp : a.isPoint = true) (hdl : 0 ≤ a.delayOf) (hd : 0 < a.durationOf) :
    (∀ t : ℚ, a.getState em t = a.getState em t) ∧
    (∀ t : ℚ, t < a.delayOf → a.getState em t = a.startState) ∧
    (∀ t : ℚ, a.delayOf + a.durationOf ≤ t → a.getState em t = a.endState) ∧
    a.getState em 0 = a.startState := by
  refine ⟨fun t => rfl, ?_, ?_, ?_⟩
  · intro t ht
    rw [getState_point em a hp, if_pos ht]
  · intro t ht
    rw [getState_point em a hp, if_neg (by push_neg; linarith),
      if_pos (by linarith)]
  · rw [getState_point em a hp]
    rcases eq_or_lt_of_le hdl with h0 | h0
    · rw [if_neg (by rw [← h0]; exact lt_irrefl 0),
        if_neg (by rw [← h0]; push_neg; simpa using hd)]
      rw [← h0]
      rw [show (0 : ℚ) - 0 = 0 by norm_num, zero_div, applyEasing_zero]
      exact interp_zero a hp
    · rw [if_pos h0]

/-- C6 witness: `FadeIn(duration=1/2, delay=3/10, easing=out_quad)`. -/
theorem c6_point_animation_evaluation_witness :
    (Anim.fadeIn (1/2) (3/10) .out_quad).isPoint = true ∧
    (0 : ℚ) ≤ (Anim.fadeIn (1/2) (3/10) .out_quad).delayOf ∧
    (0 : ℚ) < (Anim.fadeIn (1/2) (3/10) .out_quad).durationOf ∧
    ((∀ t : ℚ, (Anim.fadeIn (1/2) (3/10) .out_quad).getState (fun _ => 0) t =
        (Anim.fadeIn (1/2) (3/10) .out_quad).getState (fun _ => 0) t) ∧
      (∀ t : ℚ, t < (Anim.fadeIn (1/2) (3/10) .out_quad).delayOf →
        (Anim.fadeIn (1/2) (3/10) .out_quad).getState (fun _ => 0) t =
          (Anim.fadeIn (1/2) (3/10) .out_quad).startState) ∧
      (∀ t : ℚ, (Anim.fadeIn (1/2) (3/10) .out_quad).delayOf +
          (Anim.fadeIn (1/2) (3/10) .out_quad).durationOf ≤ t →
        (Anim.fadeIn (1/2) (3/10) .out_quad).getState (fun _ => 0) t =
          (Anim.fadeIn (1/2) (3/10) .out_quad).endState) ∧
      (Anim.fadeIn (1/2) (3/10) .out_quad).getState (fun _ => 0) 0 =
        (Anim.fadeIn (1/2) (3/10) .out_quad).startState) :=
  ⟨rfl, by norm_num [Anim.delayOf], by norm_num [Anim.durationOf],
    c6_point_animation_evaluation (fun _ => 0) (Anim.fadeIn (1/2) (3/10) .out_quad)
      rfl (by norm_num [Anim.delayOf]) (by norm_num [Anim.durationOf])⟩

/-! ## C7: Parallel and Sequential combinators -/

/-- The mutual helper lists children's total durations. -/
theorem total_dur_list_map (cs : List Anim) :
    Anim.total_dur_list cs = cs.map Anim.total_dur := by
  induction cs with
  | nil => rfl
  | cons a as ih => simp [Anim.total_dur_list, ih]

/-- The mutual helper lists children's states. -/
theorem stateList_map (em : ℚ → ℚ) (t : ℚ) (cs : List Anim) :
    Anim.stateList em cs t = cs.map (fun c => c.getState em t) := by
  induction cs with
  | nil => rfl
  | cons a as ih => simp [Anim.stateList, ih]

/-- Sums of non-negative child durations are non-negative. -/
theorem total_dur_sum_nonneg (cs : List Anim)
    (h : ∀ c ∈ cs, 0 ≤ c.total_dur) :
    0 ≤ (Anim.total_dur_list cs).foldr (· + ·) 0 := by
  induction cs with
  | nil => simp [Anim.total_dur_list]
  | cons a as ih =>
    simp only [Anim.total_dur_list, List.foldr_cons]
    have h1 := h a (List.mem_cons_self a as)
    have h2 := ih (fun c hc => h c (List.mem_cons_of_mem a hc))
    linarith

/-- Source: `cumDur` one step further adds the k-th child's total duration. -/
theorem cumDur_succ :
    ∀ (cs : List Anim) (k : ℕ) (hk : k < cs.length),
      cumDur cs (k + 1) = cumDur cs k + (cs.get ⟨k, hk⟩).total_dur := by
  intro cs
  induction cs with
  | nil => intro k hk; simp at hk
  | cons a as ih =>
    intro k hk
    rcases k with _ | j
    · simp [cumDur]
    · have hj : j < as.length := by simpa using hk
      simp only [cumDur, ih j hj, List.get_cons_succ]
      ring

/-- Source: `cumDur` is monotone when all child durations are non-negative. -/
theorem cumDur_mono (cs : List Anim) (h : ∀ c ∈ cs, 0 ≤ c.total_dur) :
    ∀ {j1 j2 : ℕ}, j1 ≤ j2 → j2 ≤ cs.length → cumDur cs j1 ≤ cumDur cs j2 := by
  have step : ∀ (k : ℕ) (hk : k < cs.length),
      cumDur cs k ≤ cumDur cs (k + 1) := by
    intro k hk
    rw [cumDur_succ cs k hk]
    have := h (cs.get ⟨k, hk⟩) (cs.get_mem k hk)
    linarith
  intro j1 j2 hle hlen
  induction j2 with
  | zero => simp_all
  | succ j ihj =>
    rcases Nat.lt_or_ge j1 (j + 1) with hlt | hge
    · have hj1 : j1 ≤ j := by omega
      have hjlen : j ≤ cs.length := by omega
      exact le_trans (ihj hj1 hjlen) (step j (by omega))
    · have : j1 = j + 1 := by omega
      subst this
      exact le_refl _

/-- At most one child window `[cumDur k, cumDur k + dur k)` contains `t`. -/
theorem cumDur_window_unique (cs : List Anim)
    (h : ∀ c ∈ cs, 0 ≤ c.total_dur) (t : ℚ) :
    ∀ (k1 k2 : ℕ) (hk1 : k1 < cs.length) (hk2 : k2 < cs.length),
      cumDur cs k1 ≤ t → t < cumDur cs k1 + (cs.get ⟨k1, hk1⟩).total_dur →
      cumDur cs k2 ≤ t → t < cumDur cs k2 + (cs.get ⟨k2, hk2⟩).total_dur →
      k1 = k2 := by
  have key : ∀ (k1 k2 : ℕ) (hk1 : k1 < cs.length) (hk2 : k2 < cs.length),
      k1 < k2 →
      t < cumDur cs k1 + (cs.get ⟨k1, hk1⟩).total_dur → cumDur cs k2 ≤ t →
      False := by
    intro k1 k2 hk1 hk2 hlt ht1 ht2
    have h1 : cumDur cs (k1 + 1) ≤ cumDur cs k2 :=
      cumDur_mono cs h (by omega) (by omega)
    rw [cumDur_succ cs k1 hk1] at h1
    linarith
  intro k1 k2 hk1 hk2 ha1 ha2 hb1 hb2
  rcases lt_trichotomy k1 k2 with hlt | heq | hgt
  · exact absurd (key k1 k2 hk1 hk2 hlt ha2 hb1) not_false
  · exact heq
  · exact absurd (key k2 k1 hk2 hk1 hgt hb2 ha1) not_false

/-- Sequential dispatch: inside the total span, `seqGo` evaluates exactly
the child whose cumulative window contains `t`, at `t` minus the cumulative
duration of the prior children. -/
theorem seqGo_dispatch (em : ℚ → ℚ) :
    ∀ (cs : List Anim) (t : ℚ), (∀ c ∈ cs, 0 ≤ c.total_dur) → 0 ≤ t →
      t < (Anim.total_dur_list cs).foldr (· + ·) 0 →
      ∃ k, ∃ hk : k < cs.length,
        cumDur cs k ≤ t ∧ t < cumDur cs k + (cs.get ⟨k, hk⟩).total_dur ∧
        Anim.seqGo em cs t = (cs.get ⟨k, hk⟩).getState em (t - cumDur cs k) := by
  intro cs
  induction cs with
  | nil =>
    intro t _ h0 hlt
    simp only [Anim.total_dur_list, List.foldr_nil] at hlt
    linarith
  | cons a as ih =>
    intro t hnn h0 hlt
    by_cases hca : t < a.total_dur
    · refine ⟨0, by simp, by simpa [cumDur] using h0, ?_, ?_⟩
      · simpa [cumDur] using hca
      · unfold Anim.seqGo
        rw [if_pos hca]
        simp [cumDur]
    · push_neg at hca
      rcases as with _ | ⟨b, bs⟩
      · exfalso
        simp only [Anim.total_dur_list, List.foldr_cons, List.foldr_nil] at hlt
        linarith
      · have hnn' : ∀ c ∈ b :: bs, 0 ≤ c.total_dur :=
          fun c hc => hnn c (List.mem_cons_of_mem a hc)
        have hlt' : t - a.total_dur <
            (Anim.total_dur_list (b :: bs)).foldr (· + ·) 0 := by
          simp only [Anim.total_dur_list, List.foldr_cons] at hlt ⊢
          linarith
        obtain ⟨k, hk, hle, hlt2, heq⟩ :=
          ih (t - a.total_dur) hnn' (by linarith) hlt'
        refine ⟨k + 1, by simpa using Nat.succ_lt_succ hk, ?_, ?_, ?_⟩
        · simp only [cumDur]
          linarith
        · simp only [cumDur, List.get_cons_succ]
          linarith
        · unfold Anim.seqGo
          rw [if_neg (not_lt.mpr hca)]
          simp only [List.get_cons_succ, cumDur]
          rw [heq]
          congr 1
          ring

/-- Past the total span, `seqGo` returns the last child's defined end
state. -/
theorem seqGo_last (em : ℚ → ℚ) :
    ∀ (cs : List Anim) (h : cs ≠ []) (t : ℚ),
      (∀ c ∈ cs, 0 ≤ c.total_dur) →
      (Anim.total_dur_list cs).foldr (· + ·) 0 ≤ t →
      Anim.seqGo em cs t = (cs.getLast h).endState := by
  intro cs
  induction cs with
  | nil => intro h; exact absurd rfl h
  | cons a as ih =>
    intro _ t hnn hle
    rcases as with _ | ⟨b, bs⟩
    · simp only [Anim.total_dur_list, List.foldr_cons, List.foldr_nil,
        add_zero] at hle
      unfold Anim.seqGo
      rw [if_neg (not_lt.mpr hle)]
      rfl
    · have hnn' : ∀ c ∈ b :: bs, 0 ≤ c.total_dur :=
        fun c hc => hnn c (List.mem_cons_of_mem a hc)
      have hsum : 0 ≤ (Anim.total_dur_list (b :: bs)).foldr (· + ·) 0 :=
        total_dur_sum_nonneg _ hnn'
      have hfirst : a.total_dur ≤ t := by
        simp only [Anim.total_dur_list, List.foldr_cons] at hle hsum
        linarith
      have hle' : (Anim.total_dur_list (b :: bs)).foldr (· + ·) 0 ≤
          t - a.total_dur := by
        simp only [Anim.total_dur_list, List.foldr_cons] at hle ⊢
        linarith
      unfold Anim.seqGo
      rw [if_neg (not_lt.mpr hfirst)]
      rw [ih (by simp) (t - a.total_dur) hnn' hle']
      rfl

/-- C7 (confirmed): the total duration of a Parallel combinator is the
maximum over the total durations of its children and its state at `t`
merges the states of all children at `t`; the total duration of a
Sequential combinator is the sum over its children, evaluation inside the span
dispatches to exactly one child — the unique one whose cumulative window
contains `t` — evaluated at `t` minus the cumulative duration of the prior
children, and evaluation at or beyond the span returns the last child's end
state. -/
theorem c7_combinators (em : ℚ → ℚ) :
    (∀ cs : List Anim,
      (Anim.par cs).total_dur = pyMax (cs.map Anim.total_dur)) ∧
    (∀ (cs : List Anim) (t : ℚ),
      (Anim.par cs).getState em t =
        (cs.map (fun c => c.getState em t)).foldl AnimationState.merge
          neutralState) ∧
    (∀ cs : List Anim,
      (Anim.seq cs).total_dur = (cs.map Anim.total_dur).sum) ∧
    (∀ (cs : List Anim) (t : ℚ), (∀ c ∈ cs, 0 ≤ c.total_dur) → 0 ≤ t →
      t < (Anim.seq cs).total_dur →
      ∃ k, ∃ hk : k < cs.length,
        cumDur cs k ≤ t ∧ t < cumDur cs k + (cs.get ⟨k, hk⟩).total_dur ∧
        (Anim.seq cs).getState em t =
          (cs.get ⟨k, hk⟩).getState em (t - cumDur cs k) ∧
        ∀ (k2 : ℕ) (hk2 : k2 < cs.length), cumDur cs k2 ≤ t →
          t < cumDur cs k2 + (cs.get ⟨k2, hk2⟩).total_dur → k2 = k) ∧
    (∀ (cs : List Anim) (h : cs ≠ []) (t : ℚ),
      (∀ c ∈ cs, 0 ≤ c.total_dur) → (Anim.seq cs).total_dur ≤ t →
      (Anim.seq cs).getState em t = (cs.getLast h).endState) := by
  refine ⟨?_, ?_, ?_, ?_, ?_⟩
  · intro cs
    simp [Anim.total_dur, total_dur_list_map]
  · intro cs t
    simp [Anim.getState, stateList_map]
  · intro cs
    simp [Anim.total_dur, total_dur_list_map, List.sum_eq_foldr]
  · intro cs t hnn h0 hlt
    have hlt' : t < (Anim.total_dur_list cs).foldr (· + ·) 0 := by
      simpa [Anim.total_dur] using hlt
    obtain ⟨k, hk, hle, hlt2, heq⟩ := seqGo_dispatch em cs t hnn h0 hlt'
    refine ⟨k, hk, hle, hlt2, ?_, ?_⟩
    · simpa [Anim.getState] using heq
    · intro k2 hk2 hb1 hb2
      exact cumDur_window_unique cs hnn t k2 k hk2 hk hb1 hb2 hle hlt2
  · intro cs h t hnn hle
    have hle' : (Anim.total_dur_list cs).foldr (· + ·) 0 ≤ t := by
      simpa [Anim.total_dur] using hle
    simpa [Anim.getState] using seqGo_last em cs h t hnn hle'

/-- C7 witness: `Sequential(FadeIn(duration=1), FadeOut(duration=2))`
evaluated at `t = 3/2`, which dispatches to the second child at time
`3/2 - 1 = 1/2`. -/
theorem c7_combinators_witness :
    (∀ c ∈ [Anim.fadeIn 1 0 .out_quad, Anim.fadeOut 2 0 .in_quad],
      0 ≤ c.total_dur) ∧ (0 : ℚ) ≤ 3/2 ∧
    (3/2 : ℚ) < (Anim.seq [Anim.fadeIn 1 0 .out_quad,
      Anim.fadeOut 2 0 .in_quad]).total_dur ∧
    (∃ k, ∃ hk : k < [Anim.fadeIn 1 0 .out_quad,
        Anim.fadeOut 2 0 .in_quad].length,
      cumDur [Anim.fadeIn 1 0 .out_quad, Anim.fadeOut 2 0 .in_quad] k ≤ 3/2 ∧
      (3/2 : ℚ) < cumDur [Anim.fadeIn 1 0 .out_quad, Anim.fadeOut 2 0 .in_quad] k +
        ([Anim.fadeIn 1 0 .out_quad, Anim.fadeOut 2 0 .in_quad].get ⟨k, hk⟩).total_dur ∧
      (Anim.seq [Anim.fadeIn 1 0 .out_quad, Anim.fadeOut 2 0 .in_quad]).getState
          (fun _ => 0) (3/2) =
        ([Anim.fadeIn 1 0 .out_quad, Anim.fadeOut 2 0 .in_quad].get ⟨k, hk⟩).getState
          (fun _ => 0)
          (3/2 - cumDur [Anim.fadeIn 1 0 .out_quad, Anim.fadeOut 2 0 .in_quad] k) ∧
      ∀ (k2 : ℕ) (hk2 : k2 < [Anim.fadeIn 1 0 .out_quad,
          Anim.fadeOut 2 0 .in_quad].length),
        cumDur [Anim.fadeIn 1 0 .out_quad, Anim.fadeOut 2 0 .in_quad] k2 ≤ 3/2 →
        (3/2 : ℚ) < cumDur [Anim.fadeIn 1 0 .out_quad, Anim.fadeOut 2 0 .in_quad] k2 +
          ([Anim.fadeIn 1 0 .out_quad, Anim.fadeOut 2 0 .in_quad].get ⟨k2, hk2⟩).total_dur →
        k2 = k) := by
  have hnn : ∀ c ∈ [Anim.fadeIn 1 0 .out_quad, Anim.fadeOut 2 0 .in_quad],
      0 ≤ c.total_dur := by
    intro c hc
    simp only [List.mem_cons, List.not_mem_nil, or_false] at hc
    rcases hc with hc | hc <;> subst hc <;> norm_num [Anim.total_dur]
  have htot : (Anim.seq [Anim.fadeIn 1 0 .out_quad,
      Anim.fadeOut 2 0 .in_quad]).total_dur = 3 := by
    norm_num [Anim.total_dur, Anim.total_dur_list]
  refine ⟨hnn, by norm_num, by rw [htot]; norm_num, ?_⟩
  exact (c7_combinators (fun _ => 0)).2.2.2.1
    [Anim.fadeIn 1 0 .out_quad, Anim.fadeOut 2 0 .in_quad] (3/2) hnn
    (by norm_num) (by rw [htot]; norm_num)

end Wavevid
